import Mathlib

/-!
Verification of the session core of `wasm-live-handlebars` (src/app.rs).

The repository ships only `src/app.rs`: the `App` component, its message
handlers (`update`), the load/restore/unload helpers and the code column
renderer. Its collaborators (`InputsData` with the path-addressed store
operations, `Path`, `Scenario`, the Handlebars engine, the yew storage
service and serde codecs) live outside the repository snapshot, so they
are modelled here from the specification and marked as such in their doc
comments. Everything taken from `src/app.rs` follows that file's control
flow line by line.
-/

namespace Hbs

/-- A path segment: a named key or an array index (spec, PathExpr). -/
inductive Seg where
  | key (k : String)
  | idx (i : Nat)
deriving DecidableEq

/-- A parsed path: an ordered list of segments; the empty list is the root. -/
abbrev Path := List Seg

/-- Modelled from the spec: the runtime value shape stored by the
inputs-data store — a closed tagged union of null, booleans, numbers,
strings, ordered sequences and string-keyed mappings. -/
inductive Node where
  | null
  | bool (b : Bool)
  | num (n : Int)
  | str (s : String)
  | arr (elems : List Node)
  | obj (fields : List (String × Node))

/-- Modelled from the spec: the inputs-data store owns exactly one root
`Node`; the default store is the empty mapping. -/
abbrev InputsData := Node

/-- The default (fresh, empty) inputs data: an empty mapping. -/
def InputsData.default : InputsData := Node.obj []

/-- Look a key up in a mapping's field list. -/
def lookupKey : List (String × Node) → String → Option Node
  | [], _ => none
  | (k', v) :: rest, k => if k' = k then some v else lookupKey rest k

/-- Set a key in a mapping's field list, replacing in place or appending. -/
def setKey : List (String × Node) → String → Node → List (String × Node)
  | [], k, v => [(k, v)]
  | (k', v') :: rest, k, v =>
    if k' = k then (k, v) :: rest else (k', v') :: setKey rest k v

/-- Erase a key from a mapping's field list. -/
def eraseKey : List (String × Node) → String → List (String × Node)
  | [], _ => []
  | (k', v') :: rest, k =>
    if k' = k then eraseKey rest k else (k', v') :: eraseKey rest k

/-- Whether a mapping's field list holds a key. -/
def containsKey (fs : List (String × Node)) (k : String) : Bool :=
  (lookupKey fs k).isSome

/-- Write index `i` of an array, padding with `Node.null` when the array is
shorter than `i + 1` (auto-vivification of missing array slots). -/
def setIdx : List Node → Nat → Node → List Node
  | [], 0, v => [v]
  | [], n + 1, v => Node.null :: setIdx [] n v
  | _ :: xs, 0, v => v :: xs
  | x :: xs, n + 1, v => x :: setIdx xs n v

/-- Resize an array to `n` elements: truncate on shrink, pad with
`Node.null` on growth. -/
def resizeList (xs : List Node) (n : Nat) : List Node :=
  if n ≤ xs.length then xs.take n
  else xs ++ List.replicate (n - xs.length) Node.null

/-- Modelled from the spec: store mutation errors — a `TypeMismatch` naming
the offending path, or `NotFound` for an unresolved path. -/
inductive StoreErr where
  | typeMismatch (p : Path)
  | notFound
deriving DecidableEq

/-- Modelled from the spec: `get_at(path)` returns the node at `path`, or
nothing when the path does not resolve. -/
def InputsData.get_at : InputsData → Path → Option Node
  | n, [] => some n
  | Node.obj fs, Seg.key k :: rest =>
    match lookupKey fs k with
    | some c => InputsData.get_at c rest
    | none => none
  | Node.arr xs, Seg.idx i :: rest =>
    match xs.get? i with
    | some c => InputsData.get_at c rest
    | none => none
  | _, _ :: _ => none

/-- The container auto-vivified for a missing intermediate slot: a mapping
before a key segment, an array before an index segment. -/
def vivify : Path → Node
  | Seg.key _ :: _ => Node.obj []
  | Seg.idx _ :: _ => Node.arr []
  | [] => Node.null

/-- As `vivify`, but a missing final slot becomes an empty array (used by
the resize operation, whose final slot must be array-or-absent). -/
def vivifyArr : Path → Node
  | Seg.key _ :: _ => Node.obj []
  | Seg.idx _ :: _ => Node.arr []
  | [] => Node.arr []

/-- Modelled from the spec: the recursive worker of `insert_at`. Walks
segments from the root; a missing intermediate container is auto-vivified;
an existing slot of incompatible shape fails with `TypeMismatch` naming the
consumed path so far (`pre`); the final slot is created or overwritten. -/
def insertGo (pre : Path) : Node → Path → Node → Except StoreErr Node
  | _, [], v => Except.ok v
  | Node.obj fs, Seg.key k :: rest, v =>
    match insertGo (pre ++ [Seg.key k]) ((lookupKey fs k).getD (vivify rest)) rest v with
    | Except.ok c => Except.ok (Node.obj (setKey fs k c))
    | Except.error e => Except.error e
  | Node.arr xs, Seg.idx i :: rest, v =>
    match insertGo (pre ++ [Seg.idx i]) ((xs.get? i).getD (vivify rest)) rest v with
    | Except.ok c => Except.ok (Node.arr (setIdx xs i c))
    | Except.error e => Except.error e
  | _, _ :: _, _ => Except.error (StoreErr.typeMismatch pre)

/-- Modelled from the spec: `insert_at(path, value)` on the inputs-data
store. -/
def InputsData.insert_at (d : InputsData) (p : Path) (v : Node) :
    Except StoreErr InputsData :=
  insertGo [] d p v

/-- Modelled from the spec: the recursive worker of `resize_array_at`.
Same traversal and auto-vivification as insertion; the final slot must be
an array or absent, otherwise `TypeMismatch`. -/
def resizeGo (pre : Path) : Node → Path → Nat → Except StoreErr Node
  | Node.arr xs, [], n => Except.ok (Node.arr (resizeList xs n))
  | Node.obj fs, Seg.key k :: rest, n =>
    match resizeGo (pre ++ [Seg.key k]) ((lookupKey fs k).getD (vivifyArr rest)) rest n with
    | Except.ok c => Except.ok (Node.obj (setKey fs k c))
    | Except.error e => Except.error e
  | Node.arr xs, Seg.idx i :: rest, n =>
    match resizeGo (pre ++ [Seg.idx i]) ((xs.get? i).getD (vivifyArr rest)) rest n with
    | Except.ok c => Except.ok (Node.arr (setIdx xs i c))
    | Except.error e => Except.error e
  | _, _, _ => Except.error (StoreErr.typeMismatch pre)

/-- Modelled from the spec: `resize_array_at(path, new_size)` on the
inputs-data store. -/
def InputsData.resize_array_at (d : InputsData) (p : Path) (n : Nat) :
    Except StoreErr InputsData :=
  resizeGo [] d p n

/-- Modelled from the spec: the recursive worker of `remove_at`. The
addressed slot's parent must currently contain it: a mapping parent drops
the key, an array parent drops the index and compacts; any unresolved path
is `NotFound`. -/
def removeGo : Node → Path → Except StoreErr Node
  | _, [] => Except.error StoreErr.notFound
  | Node.obj fs, [Seg.key k] =>
    if containsKey fs k then Except.ok (Node.obj (eraseKey fs k))
    else Except.error StoreErr.notFound
  | Node.arr xs, [Seg.idx i] =>
    if i < xs.length then Except.ok (Node.arr (xs.eraseIdx i))
    else Except.error StoreErr.notFound
  | Node.obj fs, Seg.key k :: rest =>
    match lookupKey fs k with
    | some c =>
      match removeGo c rest with
      | Except.ok c' => Except.ok (Node.obj (setKey fs k c'))
      | Except.error e => Except.error e
    | none => Except.error StoreErr.notFound
  | Node.arr xs, Seg.idx i :: rest =>
    match xs.get? i with
    | some c =>
      match removeGo c rest with
      | Except.ok c' => Except.ok (Node.arr (setIdx xs i c'))
      | Except.error e => Except.error e
    | none => Except.error StoreErr.notFound
  | _, _ :: _ => Except.error StoreErr.notFound

/-- Modelled from the spec: `remove_at(path)` on the inputs-data store. -/
def InputsData.remove_at (d : InputsData) (p : Path) :
    Except StoreErr InputsData :=
  removeGo d p

example :
    InputsData.insert_at (Node.obj []) [Seg.key "a", Seg.idx 2, Seg.key "c"] (Node.num 5)
      = Except.ok
          (Node.obj [("a", Node.arr [Node.null, Node.null, Node.obj [("c", Node.num 5)]])]) :=
  rfl

example :
    InputsData.get_at (Node.obj [("a", Node.arr [Node.null, Node.num 7])])
      [Seg.key "a", Seg.idx 1] = some (Node.num 7) :=
  rfl

/-- Modelled from the spec: a declared input field — a scalar leaf, a
boolean, a list repeating child inputs, or a nested named group; each
carries a relative path suffix. Only its presence inside `Scenario`
matters to the session claims. -/
inductive InputTypes where
  | scalar (label : String) (path : Path)
  | boolean (label : String) (path : Path)
  | list (label : String) (path : Path) (children : List InputTypes)
  | group (label : String) (path : Path) (children : List InputTypes)

/-- `Scenario` from src/app.rs: the immutable pairing of a template source
and the declared inputs. -/
structure Scenario where
  template : String
  inputs : List InputTypes

/-- `State` from src/app.rs: the session state machine. -/
inductive State where
  | init
  | loaded (scenario : Scenario) (inputs_data : InputsData)

/-- Modelled from the spec: a fetched JSON text represented by its decode
outcome, since serde_json and the derive-based decoders live outside the
repository snapshot. `invalidJson`: the text does not parse; by the order
of the decoding steps in `App::load_from_json`, `missingTemplate`: the
`template` field does not deserialize; `badInputs`: the `inputs` field
does not deserialize; `decoded`: both deserialize. -/
inductive FetchedDoc where
  | invalidJson
  | missingTemplate
  | badInputs (template : String)
  | decoded (template : String) (inputs : List InputTypes)

/-- `Msg` from src/app.rs, with `NavEvent` inlined below. -/
inductive NavEvent where
  | loadDebugScenario
  | loadFromLocalStorage
  | unloadScenario

/-- `Msg` from src/app.rs: the messages `App::update` handles. -/
inductive Msg where
  | init
  | navEvent (e : NavEvent)
  | fetchedJsonData (doc : FetchedDoc)
  | saveToLocalStorage
  | editedInput (p : Path) (v : Node)
  | listInputSizeChanged (p : Path) (n : Nat)
  | removeAt (p : Path)

/-- The failure modes of `App::load_from_json`, in the order its `?`
operators can fire. -/
inductive LoadErr where
  | invalidJson
  | missingTemplate
  | badInputs
  | compileError (e : String)

/-- Notification severity accepted by the notification port. -/
inductive NotifLevel where
  | error
  | warn
  | success
deriving DecidableEq

/-- The user-visible notifications src/app.rs raises, kept structurally
(the formatted message text is presentation). -/
inductive Notif where
  | loadError (e : LoadErr)
  | invalidRestoredTemplate (e : String)
  | restoredPrevious
  | nothingToRestore

/-- The severity each notification is sent with: `notif_error`,
`notif_warn` or `notif_success` in src/app.rs. -/
def Notif.level : Notif → NotifLevel
  | Notif.loadError _ => NotifLevel.error
  | Notif.invalidRestoredTemplate _ => NotifLevel.error
  | Notif.restoredPrevious => NotifLevel.success
  | Notif.nothingToRestore => NotifLevel.warn

/-- Log severity of the `trace!`, `warn!` and `error!` calls. -/
inductive LogLevel where
  | trace
  | warn
  | error
deriving DecidableEq

/-- The log lines src/app.rs emits, kept structurally: which call fired
and with which data (the formatted text is presentation). -/
inductive LogEvent where
  | received (m : Msg)
  | insertFailed (p : Path) (e : StoreErr)
  | resizeFailed (p : Path) (e : StoreErr)
  | removeFailed (p : Path) (e : StoreErr)
  | unexpectedMsg (m : Msg)

/-- The severity each log line is emitted with in src/app.rs. -/
def LogEvent.level : LogEvent → LogLevel
  | LogEvent.received _ => LogLevel.trace
  | LogEvent.insertFailed _ _ => LogLevel.error
  | LogEvent.resizeFailed _ _ => LogLevel.warn
  | LogEvent.removeFailed _ _ => LogLevel.warn
  | LogEvent.unexpectedMsg _ => LogLevel.warn

/-- Modelled from the spec: a stored blob either deserializes back into a
`State` or is garbage; serde and the browser's storage live outside the
repository snapshot. -/
inductive Blob where
  | good (s : State)
  | bad

/-- Modelled from the spec: the storage port — an association list from
keys to blobs standing for the browser's local storage. -/
abbrev Storage := List (String × Blob)

/-- Read a key from the storage port. -/
def getKV : Storage → String → Option Blob
  | [], _ => none
  | (k', v) :: rest, k => if k' = k then some v else getKV rest k

/-- Remove a key from the storage port. -/
def removeKV : Storage → String → Storage
  | [], _ => []
  | (k', v) :: rest, k =>
    if k' = k then removeKV rest k else (k', v) :: removeKV rest k

/-- Store a blob under a key on the storage port. -/
def storeKV (st : Storage) (k : String) (b : Blob) : Storage :=
  (k, b) :: removeKV st k

/-- `LOCAL_STORAGE_KEY` from src/app.rs: the single fixed key
`totorigolo.{CARGO_PKG_NAME}.state`. -/
def LOCAL_STORAGE_KEY : String := "totorigolo.wasm-live-handlebars.state"

/-- The environment `App::update` runs against: the template engine's
compile outcome (`some e` = `set_template` fails with `e`, `none` =
success; the Handlebars engine lives outside the repository snapshot) and
the debug scenario document built from the embedded sample files. -/
structure Env where
  tryCompile : String → Option String
  debugDoc : FetchedDoc

/-- The observable fields of the `App` component: the session state, the
storage port's content, the compiled template held by the engine, and the
notifications, log lines and messages it has emitted (newest last). -/
structure App where
  state : State
  storage : Storage
  engine : Option String
  notifs : List Notif
  logs : List LogEvent
  msgs : List Msg

/-- The decoding half of `App::load_from_json`, in the order its `?`
operators fire: parse the JSON, require the template, decode the inputs,
compile the template. Returns the decoded scenario parts or the first
failure; it reads nothing from the component. -/
def docDecode (env : Env) : FetchedDoc → Except LoadErr (String × List InputTypes)
  | FetchedDoc.invalidJson => Except.error LoadErr.invalidJson
  | FetchedDoc.missingTemplate => Except.error LoadErr.missingTemplate
  | FetchedDoc.badInputs _ => Except.error LoadErr.badInputs
  | FetchedDoc.decoded template inputs =>
    match env.tryCompile template with
    | some e => Except.error (LoadErr.compileError e)
    | none => Except.ok (template, inputs)

/-- `App::load_from_json` from src/app.rs: run the decode pipeline; only
when every step succeeded enter `Loaded` with the decoded scenario and
fresh inputs_data, hold the compiled template and schedule a save. Any
failure returns the error without touching the component. -/
def loadFromJson (env : Env) (app : App) (doc : FetchedDoc) : Except LoadErr (App × Bool) :=
  match docDecode env doc with
  | Except.error e => Except.error e
  | Except.ok (template, inputs) =>
    Except.ok
      ({ app with
          engine := some template
          state := State.loaded ⟨template, inputs⟩ InputsData.default
          msgs := app.msgs ++ [Msg.saveToLocalStorage] }, true)

/-- `App::load_debug_scenario` from src/app.rs: build the embedded sample
document and send it to the `FetchedJsonData` handler. -/
def loadDebugScenario (env : Env) (app : App) : App × Bool :=
  ({ app with msgs := app.msgs ++ [Msg.fetchedJsonData env.debugDoc] }, false)

/-- `App::load_from_local_storage` from src/app.rs: restore the blob under
the key; when it decodes, adopt it, re-compile a restored template
(deleting the snapshot and falling back to `Init` with an error
notification when compilation fails) and report success unless back at
`Init`; an absent or undecodable blob is "nothing to restore": warn,
remove the key and re-init. -/
def loadFromLocalStorage (env : Env) (app : App) : App × Bool :=
  match getKV app.storage LOCAL_STORAGE_KEY with
  | some (Blob.good restored) =>
    let app1 := { app with state := restored }
    let app2 :=
      match app1.state with
      | State.loaded sc _ =>
        match env.tryCompile sc.template with
        | some e =>
          { app1 with
              storage := removeKV app1.storage LOCAL_STORAGE_KEY
              state := State.init
              msgs := app1.msgs ++ [Msg.init]
              notifs := app1.notifs ++ [Notif.invalidRestoredTemplate e] }
        | none => { app1 with engine := some sc.template }
      | State.init => app1
    let app3 :=
      match app2.state with
      | State.init => app2
      | State.loaded _ _ => { app2 with notifs := app2.notifs ++ [Notif.restoredPrevious] }
    (app3, true)
  | _ =>
    ({ app with
        notifs := app.notifs ++ [Notif.nothingToRestore]
        storage := removeKV app.storage LOCAL_STORAGE_KEY
        msgs := app.msgs ++ [Msg.init] }, false)

/-- `App::unload_scenario` from src/app.rs: only send `Msg::Init`. -/
def unloadScenario (app : App) : App × Bool :=
  ({ app with msgs := app.msgs ++ [Msg.init] }, false)

/-- `App::update` from src/app.rs: trace the message, then dispatch. The
returned `Bool` is yew's `ShouldRender`. -/
def update (env : Env) (app0 : App) (msg : Msg) : App × Bool :=
  let app := { app0 with logs := app0.logs ++ [LogEvent.received msg] }
  match msg with
  | Msg.init => ({ app with state := State.init }, true)
  | Msg.navEvent e =>
    match e with
    | NavEvent.loadDebugScenario => loadDebugScenario env app
    | NavEvent.loadFromLocalStorage => loadFromLocalStorage env app
    | NavEvent.unloadScenario => unloadScenario app
  | Msg.fetchedJsonData doc =>
    match loadFromJson env app doc with
    | Except.ok res => res
    | Except.error e =>
      ({ app with notifs := app.notifs ++ [Notif.loadError e] }, false)
  | Msg.saveToLocalStorage =>
    ({ app with
        storage := storeKV app.storage LOCAL_STORAGE_KEY (Blob.good app.state) }, false)
  | Msg.editedInput p v =>
    match app.state with
    | State.loaded scenario d =>
      match InputsData.insert_at d p v with
      | Except.ok d' =>
        ({ app with
            state := State.loaded scenario d'
            msgs := app.msgs ++ [Msg.saveToLocalStorage] }, true)
      | Except.error e =>
        ({ app with logs := app.logs ++ [LogEvent.insertFailed p e] }, true)
    | State.init =>
      ({ app with logs := app.logs ++ [LogEvent.unexpectedMsg msg] }, false)
  | Msg.listInputSizeChanged p n =>
    match app.state with
    | State.loaded scenario d =>
      match InputsData.resize_array_at d p n with
      | Except.ok d' =>
        ({ app with
            state := State.loaded scenario d'
            msgs := app.msgs ++ [Msg.saveToLocalStorage] }, true)
      | Except.error e =>
        ({ app with
            logs := app.logs ++ [LogEvent.resizeFailed p e]
            msgs := app.msgs ++ [Msg.saveToLocalStorage] }, true)
    | State.init =>
      ({ app with logs := app.logs ++ [LogEvent.unexpectedMsg msg] }, false)
  | Msg.removeAt p =>
    match app.state with
    | State.loaded scenario d =>
      match InputsData.remove_at d p with
      | Except.ok d' =>
        ({ app with
            state := State.loaded scenario d'
            msgs := app.msgs ++ [Msg.saveToLocalStorage] }, true)
      | Except.error e =>
        ({ app with
            logs := app.logs ++ [LogEvent.removeFailed p e]
            msgs := app.msgs ++ [Msg.saveToLocalStorage] }, true)
    | State.init =>
      ({ app with logs := app.logs ++ [LogEvent.unexpectedMsg msg] }, false)

/-- Modelled from the spec: the message a render failure is displayed
with, `e.context("Failed to render the data").to_string()` in
`render_code_column`. -/
def renderErrMessage (e : String) : String :=
  "Failed to render the data: " ++ e

/-- `render_code_column` from src/app.rs, reduced to the text placed in
the rendered-template box: the render result, or on failure the error's
contexted message in its place. `render` is the engine's render function
(`some`-free total model of `TemplateEngine::render`). -/
def render_code_column (render : InputsData → Except String String) (d : InputsData) : String :=
  match render d with
  | Except.ok s => s
  | Except.error e => renderErrMessage e

/-- One store mutation: the three edits the session can delegate. -/
inductive Mut where
  | ins (p : Path) (v : Node)
  | res (p : Path) (n : Nat)
  | rem (p : Path)

/-- The path a mutation addresses. -/
def Mut.path : Mut → Path
  | Mut.ins p _ => p
  | Mut.res p _ => p
  | Mut.rem p => p

/-- Apply one mutation to the store. -/
def applyMut : Mut → InputsData → Except StoreErr InputsData
  | Mut.ins p v, d => InputsData.insert_at d p v
  | Mut.res p n, d => InputsData.resize_array_at d p n
  | Mut.rem p, d => InputsData.remove_at d p

/-- Apply a sequence of mutations; a failed mutation leaves the store as
it was (the operations are atomic), matching how the session drops a
failed edit. -/
def applyMuts : List Mut → InputsData → InputsData
  | [], d => d
  | m :: ms, d =>
    applyMuts ms
      (match applyMut m d with
       | Except.ok d' => d'
       | Except.error _ => d)

/-- Two paths diverge at a mapping key: they share a (possibly empty)
common prefix of segments and then split on two distinct keys. Such a
pair addresses separate subtrees that no array re-indexing can mix. -/
inductive Diverges : Path → Path → Prop where
  | head {k k' : String} (q p : Path) : k ≠ k' → Diverges (Seg.key k :: q) (Seg.key k' :: p)
  | step (s : Seg) {q p : Path} : Diverges q p → Diverges (s :: q) (s :: p)

/-- Whether `q` addresses `p` itself or an ancestor of `p` (`q` is a
prefix of `p`). -/
def isAncestorOrSelf : Path → Path → Bool
  | [], _ => true
  | _ :: _, [] => false
  | s :: q, t :: p => s = t && isAncestorOrSelf q p

/-- A sample inputs store for concrete checks: `{a: 1}`. -/
def sampleInputs : InputsData := Node.obj [("a", Node.num 1)]

/-- A sample scenario with template source `T` and no declared inputs. -/
def sampleScenario : Scenario := ⟨"T", []⟩

/-- A sample loaded session holding `sampleScenario` and `sampleInputs`. -/
def sampleApp : App :=
  { state := State.loaded sampleScenario sampleInputs
    storage := []
    engine := some "T"
    notifs := []
    logs := []
    msgs := [] }

/-- A sample session at `Init` whose storage holds a decodable snapshot of
the sample loaded session. -/
def sampleSnapshotApp : App :=
  { state := State.init
    storage := [(LOCAL_STORAGE_KEY, Blob.good (State.loaded sampleScenario sampleInputs))]
    engine := none
    notifs := []
    logs := []
    msgs := [] }

/-- An environment whose engine compiles every template. -/
def sampleEnv : Env :=
  { tryCompile := fun _ => none
    debugDoc := FetchedDoc.decoded "T" [] }

/-- An environment whose engine rejects every template with a fixed
compile error. -/
def sampleEnvBadCompile : Env :=
  { tryCompile := fun _ => some "unclosed block"
    debugDoc := FetchedDoc.decoded "T" [] }

/-! ### Helper lemmas about the store primitives -/

theorem lookupKey_setKey_self (fs : List (String × Node)) (k : String) (v : Node) :
    lookupKey (setKey fs k v) k = some v := by
  induction fs with
  | nil => simp [setKey, lookupKey]
  | cons hd tl ih =>
    obtain ⟨k', v'⟩ := hd
    by_cases h : k' = k
    · simp [setKey, h, lookupKey]
    · simp [setKey, h, lookupKey, ih]

theorem lookupKey_setKey_ne (fs : List (String × Node)) {k k' : String} (v : Node)
    (h : k ≠ k') : lookupKey (setKey fs k v) k' = lookupKey fs k' := by
  induction fs with
  | nil => simp [setKey, lookupKey, h]
  | cons hd tl ih =>
    obtain ⟨a, b⟩ := hd
    by_cases ha : a = k
    · simp [setKey, ha, lookupKey, h]
    · simp [setKey, ha, lookupKey, ih]

theorem lookupKey_eraseKey_ne (fs : List (String × Node)) {k k' : String}
    (h : k ≠ k') : lookupKey (eraseKey fs k) k' = lookupKey fs k' := by
  induction fs with
  | nil => simp [eraseKey]
  | cons hd tl ih =>
    obtain ⟨a, b⟩ := hd
    by_cases ha : a = k
    · subst ha
      simp [eraseKey, lookupKey, ih, h]
    · simp [eraseKey, ha, lookupKey, ih]

theorem get?_setIdx_self (xs : List Node) (i : Nat) (v : Node) :
    (setIdx xs i v)[i]? = some v := by
  induction i generalizing xs with
  | zero => cases xs <;> simp [setIdx]
  | succ n ih => cases xs <;> simp [setIdx, ih]

theorem getKV_removeKV_self (st : Storage) (k : String) :
    getKV (removeKV st k) k = none := by
  induction st with
  | nil => simp [removeKV, getKV]
  | cons hd tl ih =>
    obtain ⟨a, b⟩ := hd
    by_cases ha : a = k
    · simp [removeKV, ha, ih]
    · simp [removeKV, ha, getKV, ih]

/-! ### Reading back an inserted value -/

theorem insertGo_get (p : Path) :
    ∀ (pre : Path) (root root' v : Node),
      insertGo pre root p v = Except.ok root' →
      InputsData.get_at root' p = some v := by
  induction p with
  | nil =>
    intro pre root root' v h
    simp [insertGo] at h
    subst h
    simp [InputsData.get_at]
  | cons s rest ih =>
    intro pre root root' v h
    cases s with
    | key k =>
      cases root <;> simp [insertGo] at h
      case obj fs =>
        split at h
        · rename_i c hc
          cases h
          simp [InputsData.get_at, lookupKey_setKey_self]
          exact ih _ _ _ _ hc
        · cases h
    | idx i =>
      cases root <;> simp [insertGo] at h
      case arr xs =>
        split at h
        · rename_i c hc
          cases h
          simp [InputsData.get_at, get?_setIdx_self]
          exact ih _ _ _ _ hc
        · cases h

theorem get_at_key_obj {fs : List (String × Node)} {k : String} {c : Node} (p : Path)
    (hlk : lookupKey fs k = some c) :
    InputsData.get_at (Node.obj fs) (Seg.key k :: p) = InputsData.get_at c p := by
  simp [InputsData.get_at, hlk]

theorem get_at_idx_arr {xs : List Node} {i : Nat} {c : Node} (p : Path)
    (hlk : xs[i]? = some c) :
    InputsData.get_at (Node.arr xs) (Seg.idx i :: p) = InputsData.get_at c p := by
  simp [InputsData.get_at, hlk]

theorem get_at_key_inv {root : Node} {k : String} {p : Path} {v : Node}
    (h : InputsData.get_at root (Seg.key k :: p) = some v) :
    ∃ fs c, root = Node.obj fs ∧ lookupKey fs k = some c ∧
      InputsData.get_at c p = some v := by
  cases root <;> simp [InputsData.get_at] at h
  case obj fs =>
    split at h
    · rename_i c hc
      exact ⟨fs, c, rfl, hc, h⟩
    · cases h

theorem get_at_idx_inv {root : Node} {i : Nat} {p : Path} {v : Node}
    (h : InputsData.get_at root (Seg.idx i :: p) = some v) :
    ∃ xs c, root = Node.arr xs ∧ xs[i]? = some c ∧
      InputsData.get_at c p = some v := by
  cases root <;> simp [InputsData.get_at] at h
  case arr xs =>
    split at h
    · rename_i c hc
      exact ⟨xs, c, rfl, hc, h⟩
    · cases h

theorem Diverges.src_cons {q p : Path} (h : Diverges q p) : ∃ s q', q = s :: q' := by
  cases h <;> exact ⟨_, _, rfl⟩

/-! ### A mutation whose path diverges from `p` at a key preserves `p` -/

theorem insertGo_preserve {q p : Path} (hd : Diverges q p) :
    ∀ (pre : Path) (root root' w v : Node),
      insertGo pre root q w = Except.ok root' →
      InputsData.get_at root p = some v →
      InputsData.get_at root' p = some v := by
  induction hd with
  | head q0 p0 hne =>
    rename_i k k'
    intro pre root root' w v hins hget
    obtain ⟨fs, c, rfl, hlk, hc⟩ := get_at_key_inv hget
    simp only [insertGo] at hins
    split at hins
    · rename_i c1 hc1
      cases hins
      have hlk' : lookupKey (setKey fs k c1) k' = some c := by
        rw [lookupKey_setKey_ne _ _ hne]; exact hlk
      rw [get_at_key_obj p0 hlk']
      exact hc
    · cases hins
  | step s hd' ih =>
    intro pre root root' w v hins hget
    cases s with
    | key k =>
      obtain ⟨fs, c, rfl, hlk, hc⟩ := get_at_key_inv hget
      simp only [insertGo, hlk, Option.getD_some] at hins
      split at hins
      · rename_i c1 hc1
        cases hins
        rw [get_at_key_obj _ (lookupKey_setKey_self fs k c1)]
        exact ih _ _ _ _ _ hc1 hc
      · cases hins
    | idx i =>
      obtain ⟨xs, c, rfl, hlk, hc⟩ := get_at_idx_inv hget
      simp only [insertGo, List.get?_eq_getElem?, hlk, Option.getD_some] at hins
      split at hins
      · rename_i c1 hc1
        cases hins
        rw [get_at_idx_arr _ (get?_setIdx_self xs i c1)]
        exact ih _ _ _ _ _ hc1 hc
      · cases hins

theorem resizeGo_preserve {q p : Path} (hd : Diverges q p) :
    ∀ (pre : Path) (root root' : Node) (n : Nat) (v : Node),
      resizeGo pre root q n = Except.ok root' →
      InputsData.get_at root p = some v →
      InputsData.get_at root' p = some v := by
  induction hd with
  | head q0 p0 hne =>
    rename_i k k'
    intro pre root root' n v hres hget
    obtain ⟨fs, c, rfl, hlk, hc⟩ := get_at_key_inv hget
    simp only [resizeGo] at hres
    split at hres
    · rename_i c1 hc1
      cases hres
      have hlk' : lookupKey (setKey fs k c1) k' = some c := by
        rw [lookupKey_setKey_ne _ _ hne]; exact hlk
      rw [get_at_key_obj p0 hlk']
      exact hc
    · cases hres
  | step s hd' ih =>
    intro pre root root' n v hres hget
    cases s with
    | key k =>
      obtain ⟨fs, c, rfl, hlk, hc⟩ := get_at_key_inv hget
      simp only [resizeGo, hlk, Option.getD_some] at hres
      split at hres
      · rename_i c1 hc1
        cases hres
        rw [get_at_key_obj _ (lookupKey_setKey_self fs k c1)]
        exact ih _ _ _ _ _ hc1 hc
      · cases hres
    | idx i =>
      obtain ⟨xs, c, rfl, hlk, hc⟩ := get_at_idx_inv hget
      simp only [resizeGo, List.get?_eq_getElem?, hlk, Option.getD_some] at hres
      split at hres
      · rename_i c1 hc1
        cases hres
        rw [get_at_idx_arr _ (get?_setIdx_self xs i c1)]
        exact ih _ _ _ _ _ hc1 hc
      · cases hres

theorem removeGo_preserve {q p : Path} (hd : Diverges q p) :
    ∀ (root root' v : Node),
      removeGo root q = Except.ok root' →
      InputsData.get_at root p = some v →
      InputsData.get_at root' p = some v := by
  induction hd with
  | head q0 p0 hne =>
    rename_i k k'
    intro root root' v hrem hget
    obtain ⟨fs, c, rfl, hlk, hc⟩ := get_at_key_inv hget
    cases q0 with
    | nil =>
      simp only [removeGo] at hrem
      split at hrem
      · cases hrem
        have hlk' : lookupKey (eraseKey fs k) k' = some c := by
          rw [lookupKey_eraseKey_ne _ hne]; exact hlk
        rw [get_at_key_obj p0 hlk']
        exact hc
      · cases hrem
    | cons s2 q2 =>
      simp only [removeGo] at hrem
      split at hrem
      · rename_i c0 hc0
        split at hrem
        · rename_i c1 hc1
          cases hrem
          have hlk' : lookupKey (setKey fs k c1) k' = some c := by
            rw [lookupKey_setKey_ne _ _ hne]; exact hlk
          rw [get_at_key_obj p0 hlk']
          exact hc
        · cases hrem
      · cases hrem
  | step s hd' ih =>
    intro root root' v hrem hget
    obtain ⟨s2, q2, rfl⟩ := hd'.src_cons
    cases s with
    | key k =>
      obtain ⟨fs, c, rfl, hlk, hc⟩ := get_at_key_inv hget
      simp only [removeGo, hlk] at hrem
      split at hrem
      · rename_i c1 hc1
        cases hrem
        rw [get_at_key_obj _ (lookupKey_setKey_self fs k c1)]
        exact ih _ _ _ hc1 hc
      · cases hrem
    | idx i =>
      obtain ⟨xs, c, rfl, hlk, hc⟩ := get_at_idx_inv hget
      simp only [removeGo, List.get?_eq_getElem?, hlk] at hrem
      split at hrem
      · rename_i c1 hc1
        cases hrem
        rw [get_at_idx_arr _ (get?_setIdx_self xs i c1)]
        exact ih _ _ _ hc1 hc
      · cases hrem

theorem applyMut_preserve {m : Mut} {p : Path} (hd : Diverges (Mut.path m) p)
    {d d' : InputsData} {v : Node} (h : applyMut m d = Except.ok d')
    (hg : InputsData.get_at d p = some v) :
    InputsData.get_at d' p = some v := by
  cases m with
  | ins q w => exact insertGo_preserve hd [] d d' w v h hg
  | res q n => exact resizeGo_preserve hd [] d d' n v h hg
  | rem q => exact removeGo_preserve hd d d' v h hg

theorem applyMuts_preserve (ms : List Mut) {p : Path} {v : Node} :
    ∀ d, (∀ m ∈ ms, Diverges (Mut.path m) p) →
      InputsData.get_at d p = some v →
      InputsData.get_at (applyMuts ms d) p = some v := by
  induction ms with
  | nil =>
    intro d _ hg
    simpa [applyMuts] using hg
  | cons m rest ih =>
    intro d hall hg
    simp only [applyMuts]
    cases hm : applyMut m d with
    | ok d2 =>
      exact ih d2 (fun m' hm' => hall m' (List.mem_cons_of_mem _ hm'))
        (applyMut_preserve (hall m (List.mem_cons_self _ _)) hm hg)
    | error e =>
      exact ih d (fun m' hm' => hall m' (List.mem_cons_of_mem _ hm')) hg

/-! ### Claim theorems -/

/-- C1: while the session is `Loaded`, an edit message whose delegated
store mutation fails leaves the component exactly as it was apart from the
log: the state stays `Loaded` with the same scenario and the same
inputs_data (the edit is dropped), a log line at error level (insert) or
warn level (resize, remove) records the failure, no notification is
raised, and the handler returns without panicking (it is a total
function). -/
theorem failed_edit_is_dropped (env : Env) (app : App) (sc : Scenario) (d : InputsData)
    (h : app.state = State.loaded sc d) :
    (∀ p v e, InputsData.insert_at d p v = Except.error e →
      update env app (Msg.editedInput p v) =
        ({ app with
            logs := app.logs ++
              [LogEvent.received (Msg.editedInput p v), LogEvent.insertFailed p e] }, true)) ∧
    (∀ p n e, InputsData.resize_array_at d p n = Except.error e →
      update env app (Msg.listInputSizeChanged p n) =
        ({ app with
            logs := app.logs ++
              [LogEvent.received (Msg.listInputSizeChanged p n), LogEvent.resizeFailed p e]
            msgs := app.msgs ++ [Msg.saveToLocalStorage] }, true)) ∧
    (∀ p e, InputsData.remove_at d p = Except.error e →
      update env app (Msg.removeAt p) =
        ({ app with
            logs := app.logs ++
              [LogEvent.received (Msg.removeAt p), LogEvent.removeFailed p e]
            msgs := app.msgs ++ [Msg.saveToLocalStorage] }, true)) := by
  refine ⟨?_, ?_, ?_⟩
  · intro p v e hfail
    simp [update, h, hfail]
  · intro p n e hfail
    simp [update, h, hfail]
  · intro p e hfail
    simp [update, h, hfail]

/-- Witness for C1: on the sample store `{a: 1}` all three edits fail
(inserting below `a` hits a number, resizing `a` hits a number, removing
`zz` is unresolved) and the handlers behave as the theorem states. -/
theorem failed_edit_is_dropped_witness :
    (InputsData.insert_at sampleInputs [Seg.key "a", Seg.key "b"] (Node.num 2)
        = Except.error (StoreErr.typeMismatch [Seg.key "a"])) ∧
    (InputsData.resize_array_at sampleInputs [Seg.key "a"] 3
        = Except.error (StoreErr.typeMismatch [Seg.key "a"])) ∧
    (InputsData.remove_at sampleInputs [Seg.key "zz"] = Except.error StoreErr.notFound) ∧
    update sampleEnv sampleApp (Msg.editedInput [Seg.key "a", Seg.key "b"] (Node.num 2))
      = ({ sampleApp with
            logs := sampleApp.logs ++
              [LogEvent.received (Msg.editedInput [Seg.key "a", Seg.key "b"] (Node.num 2)),
               LogEvent.insertFailed [Seg.key "a", Seg.key "b"]
                 (StoreErr.typeMismatch [Seg.key "a"])] }, true) ∧
    update sampleEnv sampleApp (Msg.listInputSizeChanged [Seg.key "a"] 3)
      = ({ sampleApp with
            logs := sampleApp.logs ++
              [LogEvent.received (Msg.listInputSizeChanged [Seg.key "a"] 3),
               LogEvent.resizeFailed [Seg.key "a"] (StoreErr.typeMismatch [Seg.key "a"])]
            msgs := sampleApp.msgs ++ [Msg.saveToLocalStorage] }, true) ∧
    update sampleEnv sampleApp (Msg.removeAt [Seg.key "zz"])
      = ({ sampleApp with
            logs := sampleApp.logs ++
              [LogEvent.received (Msg.removeAt [Seg.key "zz"]),
               LogEvent.removeFailed [Seg.key "zz"] StoreErr.notFound]
            msgs := sampleApp.msgs ++ [Msg.saveToLocalStorage] }, true) := by
  have h := failed_edit_is_dropped sampleEnv sampleApp sampleScenario sampleInputs rfl
  exact ⟨rfl, rfl, rfl, h.1 _ _ _ rfl, h.2.1 _ _ _ rfl, h.2.2 _ _ rfl⟩

/-- C2 (amended): after a successful `insert_at(p, v)`, `get_at(p)`
returns exactly `v`, and keeps returning `v` across any sequence of later
mutations — insert, resize or remove, each applied when it succeeds and
dropped when it fails — whose target paths diverge from `p` at a mapping
key. (Mutations at `p`, at an ancestor or a descendant of `p`, or at a
sibling index of an array along `p` are excluded: see the
counterexample.) -/
theorem insert_then_get (d d' : InputsData) (p : Path) (v : Node)
    (h : InputsData.insert_at d p v = Except.ok d') :
    InputsData.get_at d' p = some v ∧
    ∀ ms : List Mut, (∀ m ∈ ms, Diverges (Mut.path m) p) →
      InputsData.get_at (applyMuts ms d') p = some v := by
  have h1 := insertGo_get p [] d d' v h
  exact ⟨h1, fun ms hall => applyMuts_preserve ms d' hall h1⟩

/-- C2 counterexample to the claim as stated: insert `7` at
`p = a[1]`, then remove `a[0]` — a path that is neither `p` nor an
ancestor of `p`. The removal succeeds, shifts the array, and `get_at(p)`
no longer returns `7`. -/
theorem insert_then_get_counterexample :
    InputsData.insert_at (Node.obj []) [Seg.key "a", Seg.idx 1] (Node.num 7)
      = Except.ok (Node.obj [("a", Node.arr [Node.null, Node.num 7])]) ∧
    InputsData.remove_at (Node.obj [("a", Node.arr [Node.null, Node.num 7])])
        [Seg.key "a", Seg.idx 0]
      = Except.ok (Node.obj [("a", Node.arr [Node.num 7])]) ∧
    isAncestorOrSelf [Seg.key "a", Seg.idx 0] [Seg.key "a", Seg.idx 1] = false ∧
    InputsData.get_at (Node.obj [("a", Node.arr [Node.num 7])])
        [Seg.key "a", Seg.idx 1] = none ∧
    (none : Option Node) ≠ some (Node.num 7) := by
  refine ⟨rfl, rfl, rfl, rfl, by simp⟩

/-- Witness for C2: insert `1` at `a` on the empty store, then insert `2`
at `b` (diverging from `a` at the top-level key); `get_at(a)` still
returns `1`. -/
theorem insert_then_get_witness :
    (InputsData.insert_at (Node.obj []) [Seg.key "a"] (Node.num 1)
        = Except.ok (Node.obj [("a", Node.num 1)])) ∧
    InputsData.get_at
        (applyMuts [Mut.ins [Seg.key "b"] (Node.num 2)] (Node.obj [("a", Node.num 1)]))
        [Seg.key "a"] = some (Node.num 1) := by
  have hdiv : ∀ m ∈ [Mut.ins [Seg.key "b"] (Node.num 2)],
      Diverges (Mut.path m) [Seg.key "a"] := by
    intro m hm
    simp at hm
    subst hm
    exact Diverges.head _ _ (by decide)
  exact ⟨rfl,
    (insert_then_get (Node.obj []) (Node.obj [("a", Node.num 1)]) [Seg.key "a"]
      (Node.num 1) rfl).2 _ hdiv⟩

/-- C3: restoring a decodable `Loaded` snapshot whose template fails to
compile deletes the snapshot under the storage key, resets the session to
`Init` (also re-sending `Msg::Init`), and raises an error-level
notification. -/
theorem corrupt_snapshot_restore (env : Env) (app : App) (sc : Scenario) (d : InputsData)
    (err : String)
    (hs : getKV app.storage LOCAL_STORAGE_KEY = some (Blob.good (State.loaded sc d)))
    (hc : env.tryCompile sc.template = some err) :
    update env app (Msg.navEvent NavEvent.loadFromLocalStorage) =
      ({ app with
          logs := app.logs ++
            [LogEvent.received (Msg.navEvent NavEvent.loadFromLocalStorage)]
          storage := removeKV app.storage LOCAL_STORAGE_KEY
          state := State.init
          msgs := app.msgs ++ [Msg.init]
          notifs := app.notifs ++ [Notif.invalidRestoredTemplate err] }, true) ∧
    getKV (removeKV app.storage LOCAL_STORAGE_KEY) LOCAL_STORAGE_KEY = none ∧
    (Notif.invalidRestoredTemplate err).level = NotifLevel.error := by
  refine ⟨?_, getKV_removeKV_self _ _, rfl⟩
  simp [update, loadFromLocalStorage, hs, hc]

/-- Witness for C3: a stored snapshot of the sample loaded session,
restored under an engine that rejects every template. -/
theorem corrupt_snapshot_restore_witness :
    (getKV sampleSnapshotApp.storage LOCAL_STORAGE_KEY
        = some (Blob.good (State.loaded sampleScenario sampleInputs))) ∧
    (sampleEnvBadCompile.tryCompile sampleScenario.template = some "unclosed block") ∧
    update sampleEnvBadCompile sampleSnapshotApp (Msg.navEvent NavEvent.loadFromLocalStorage)
      = ({ sampleSnapshotApp with
            logs := sampleSnapshotApp.logs ++
              [LogEvent.received (Msg.navEvent NavEvent.loadFromLocalStorage)]
            storage := removeKV sampleSnapshotApp.storage LOCAL_STORAGE_KEY
            state := State.init
            msgs := sampleSnapshotApp.msgs ++ [Msg.init]
            notifs := sampleSnapshotApp.notifs ++
              [Notif.invalidRestoredTemplate "unclosed block"] }, true) := by
  exact ⟨rfl, rfl,
    (corrupt_snapshot_restore sampleEnvBadCompile sampleSnapshotApp sampleScenario
      sampleInputs "unclosed block" rfl rfl).1⟩

/-- C4: when the load of a fetched document fails — unparsable JSON,
missing template, undecodable inputs, or a template that fails to
compile — the state field is left exactly as it was and exactly one
error-level notification is raised; each of the four modes is indeed a
failure of the decode pipeline. -/
theorem failed_load_preserves_state (env : Env) (app : App) (doc : FetchedDoc) (e : LoadErr)
    (h : docDecode env doc = Except.error e) :
    update env app (Msg.fetchedJsonData doc) =
      ({ app with
          logs := app.logs ++ [LogEvent.received (Msg.fetchedJsonData doc)]
          notifs := app.notifs ++ [Notif.loadError e] }, false) ∧
    (Notif.loadError e).level = NotifLevel.error ∧
    docDecode env FetchedDoc.invalidJson = Except.error LoadErr.invalidJson ∧
    docDecode env FetchedDoc.missingTemplate = Except.error LoadErr.missingTemplate ∧
    (∀ t, docDecode env (FetchedDoc.badInputs t) = Except.error LoadErr.badInputs) ∧
    (∀ t i ce, env.tryCompile t = some ce →
      docDecode env (FetchedDoc.decoded t i) = Except.error (LoadErr.compileError ce)) := by
  refine ⟨?_, rfl, rfl, rfl, fun t => rfl, fun t i ce hce => by simp [docDecode, hce]⟩
  simp [update, loadFromJson, h]

/-- Witness for C4: loading an undecodable-inputs document against the
sample loaded session leaves it loaded and raises one error. -/
theorem failed_load_preserves_state_witness :
    (docDecode sampleEnv (FetchedDoc.badInputs "T") = Except.error LoadErr.badInputs) ∧
    update sampleEnv sampleApp (Msg.fetchedJsonData (FetchedDoc.badInputs "T"))
      = ({ sampleApp with
            logs := sampleApp.logs ++
              [LogEvent.received (Msg.fetchedJsonData (FetchedDoc.badInputs "T"))]
            notifs := sampleApp.notifs ++ [Notif.loadError LoadErr.badInputs] }, false) := by
  exact ⟨rfl,
    (failed_load_preserves_state sampleEnv sampleApp (FetchedDoc.badInputs "T")
      LoadErr.badInputs rfl).1⟩

theorem getKV_storeKV_self (st : Storage) (k : String) (b : Blob) :
    getKV (storeKV st k b) k = some b := by
  simp [storeKV, getKV]

/-- C5: in `Loaded`, every edit whose store mutation succeeds schedules
`Msg::SaveToLocalStorage`; handling that message serializes the whole
session state (scenario and inputs_data together, as one `State` value)
under the single fixed local-storage key, and raises no notification —
nothing about the save is surfaced to the user. -/
theorem successful_edit_schedules_save (env : Env) (app : App) (sc : Scenario)
    (d : InputsData) (h : app.state = State.loaded sc d) :
    (∀ p v d', InputsData.insert_at d p v = Except.ok d' →
      update env app (Msg.editedInput p v) =
        ({ app with
            logs := app.logs ++ [LogEvent.received (Msg.editedInput p v)]
            state := State.loaded sc d'
            msgs := app.msgs ++ [Msg.saveToLocalStorage] }, true)) ∧
    (∀ p n d', InputsData.resize_array_at d p n = Except.ok d' →
      update env app (Msg.listInputSizeChanged p n) =
        ({ app with
            logs := app.logs ++ [LogEvent.received (Msg.listInputSizeChanged p n)]
            state := State.loaded sc d'
            msgs := app.msgs ++ [Msg.saveToLocalStorage] }, true)) ∧
    (∀ p d', InputsData.remove_at d p = Except.ok d' →
      update env app (Msg.removeAt p) =
        ({ app with
            logs := app.logs ++ [LogEvent.received (Msg.removeAt p)]
            state := State.loaded sc d'
            msgs := app.msgs ++ [Msg.saveToLocalStorage] }, true)) ∧
    (update env app Msg.saveToLocalStorage =
      ({ app with
          logs := app.logs ++ [LogEvent.received Msg.saveToLocalStorage]
          storage := storeKV app.storage LOCAL_STORAGE_KEY (Blob.good app.state) }, false)) ∧
    getKV (storeKV app.storage LOCAL_STORAGE_KEY (Blob.good app.state)) LOCAL_STORAGE_KEY
      = some (Blob.good app.state) := by
  refine ⟨?_, ?_, ?_, ?_, getKV_storeKV_self _ _ _⟩
  · intro p v d' hok
    simp [update, h, hok]
  · intro p n d' hok
    simp [update, h, hok]
  · intro p d' hok
    simp [update, h, hok]
  · simp [update]

/-- Witness for C5: on the sample loaded session, inserting at `c`,
resizing `l` and removing `a` all succeed and schedule the save; the save
handler stores the whole state under the key. -/
theorem successful_edit_schedules_save_witness :
    (InputsData.insert_at sampleInputs [Seg.key "c"] (Node.num 2)
        = Except.ok (Node.obj [("a", Node.num 1), ("c", Node.num 2)])) ∧
    (update sampleEnv sampleApp (Msg.editedInput [Seg.key "c"] (Node.num 2))).1.msgs
        = sampleApp.msgs ++ [Msg.saveToLocalStorage] ∧
    (InputsData.resize_array_at sampleInputs [Seg.key "l"] 2
        = Except.ok (Node.obj [("a", Node.num 1), ("l", Node.arr [Node.null, Node.null])])) ∧
    (update sampleEnv sampleApp (Msg.listInputSizeChanged [Seg.key "l"] 2)).1.msgs
        = sampleApp.msgs ++ [Msg.saveToLocalStorage] ∧
    (InputsData.remove_at sampleInputs [Seg.key "a"] = Except.ok (Node.obj [])) ∧
    (update sampleEnv sampleApp (Msg.removeAt [Seg.key "a"])).1.msgs
        = sampleApp.msgs ++ [Msg.saveToLocalStorage] ∧
    update sampleEnv sampleApp Msg.saveToLocalStorage
      = ({ sampleApp with
            logs := sampleApp.logs ++ [LogEvent.received Msg.saveToLocalStorage]
            storage := storeKV sampleApp.storage LOCAL_STORAGE_KEY
              (Blob.good sampleApp.state) }, false) := by
  have h := successful_edit_schedules_save sampleEnv sampleApp sampleScenario sampleInputs rfl
  refine ⟨rfl, ?_, rfl, ?_, rfl, ?_, h.2.2.2.1⟩
  · rw [h.1 [Seg.key "c"] (Node.num 2)
      (Node.obj [("a", Node.num 1), ("c", Node.num 2)]) rfl]
  · rw [h.2.1 [Seg.key "l"] 2
      (Node.obj [("a", Node.num 1), ("l", Node.arr [Node.null, Node.null])]) rfl]
  · rw [h.2.2.1 [Seg.key "a"] (Node.obj []) rfl]

/-- C6: a successful load of a fetched document enters `Loaded` with the
decoded scenario and fresh default inputs_data and schedules a save; the
debug button routes its built document through the same handler; a
restore instead enters `Loaded` with the snapshot's saved inputs_data. -/
theorem successful_load_enters_loaded (env : Env) (app : App) :
    (∀ t i, env.tryCompile t = none →
      update env app (Msg.fetchedJsonData (FetchedDoc.decoded t i)) =
        ({ app with
            logs := app.logs ++
              [LogEvent.received (Msg.fetchedJsonData (FetchedDoc.decoded t i))]
            engine := some t
            state := State.loaded ⟨t, i⟩ InputsData.default
            msgs := app.msgs ++ [Msg.saveToLocalStorage] }, true)) ∧
    (update env app (Msg.navEvent NavEvent.loadDebugScenario) =
      ({ app with
          logs := app.logs ++ [LogEvent.received (Msg.navEvent NavEvent.loadDebugScenario)]
          msgs := app.msgs ++ [Msg.fetchedJsonData env.debugDoc] }, false)) ∧
    (∀ sc d, getKV app.storage LOCAL_STORAGE_KEY = some (Blob.good (State.loaded sc d)) →
      env.tryCompile sc.template = none →
      update env app (Msg.navEvent NavEvent.loadFromLocalStorage) =
        ({ app with
            logs := app.logs ++
              [LogEvent.received (Msg.navEvent NavEvent.loadFromLocalStorage)]
            state := State.loaded sc d
            engine := some sc.template
            notifs := app.notifs ++ [Notif.restoredPrevious] }, true)) := by
  refine ⟨?_, ?_, ?_⟩
  · intro t i hc
    simp [update, loadFromJson, docDecode, hc]
  · simp [update, loadDebugScenario]
  · intro sc d hs hc
    simp [update, loadFromLocalStorage, hs, hc]

/-- Witness for C6: loading a decoded document enters `Loaded` with fresh
inputs_data, while restoring the sample snapshot enters `Loaded` with the
snapshot's inputs_data. -/
theorem successful_load_enters_loaded_witness :
    (sampleEnv.tryCompile "T" = none) ∧
    (update sampleEnv sampleSnapshotApp
        (Msg.fetchedJsonData (FetchedDoc.decoded "T" []))).1.state
      = State.loaded ⟨"T", []⟩ InputsData.default ∧
    (getKV sampleSnapshotApp.storage LOCAL_STORAGE_KEY
        = some (Blob.good (State.loaded sampleScenario sampleInputs))) ∧
    (update sampleEnv sampleSnapshotApp (Msg.navEvent NavEvent.loadFromLocalStorage)).1.state
      = State.loaded sampleScenario sampleInputs := by
  have h := successful_load_enters_loaded sampleEnv sampleSnapshotApp
  refine ⟨rfl, ?_, rfl, ?_⟩
  · rw [h.1 "T" [] rfl]
  · rw [h.2.2 sampleScenario sampleInputs rfl rfl]

/-- C7: unloading only sends `Msg::Init`, and handling `Msg::Init` only
resets the state field: neither touches the storage, so a persisted
snapshot under the local-storage key survives an unload. -/
theorem unload_preserves_snapshot (env : Env) (app : App) :
    update env app (Msg.navEvent NavEvent.unloadScenario) =
      ({ app with
          logs := app.logs ++ [LogEvent.received (Msg.navEvent NavEvent.unloadScenario)]
          msgs := app.msgs ++ [Msg.init] }, false) ∧
    update env app Msg.init =
      ({ app with
          logs := app.logs ++ [LogEvent.received Msg.init]
          state := State.init }, true) ∧
    (update env app (Msg.navEvent NavEvent.unloadScenario)).1.storage = app.storage ∧
    (update env app Msg.init).1.storage = app.storage := by
  refine ⟨?_, ?_, ?_, ?_⟩ <;> simp [update, unloadScenario]

/-- C8: `render_code_column` is a total function that, when the engine's
render fails, displays the error's contexted message as the
rendered-output text in place of the rendered template, and otherwise
displays the rendered text. -/
theorem render_error_is_displayed (render : InputsData → Except String String)
    (d : InputsData) :
    (∀ e, render d = Except.error e → render_code_column render d = renderErrMessage e) ∧
    (∀ s, render d = Except.ok s → render_code_column render d = s) := by
  constructor
  · intro e h
    simp [render_code_column, h]
  · intro s h
    simp [render_code_column, h]

/-- Witness for C8: a render that fails with `missing field` displays the
contexted message. -/
theorem render_error_is_displayed_witness :
    render_code_column (fun _ => Except.error "missing field") sampleInputs
      = renderErrMessage "missing field" :=
  (render_error_is_displayed (fun _ => Except.error "missing field") sampleInputs).1
    "missing field" rfl

/-- C9: an absent or undecodable snapshot is nothing-to-restore, not an
error: the handler raises one warn-level (not error-level) notification,
removes the stale key and re-initializes; no load error is raised. -/
theorem nothing_to_restore_is_warn (env : Env) (app : App)
    (h : getKV app.storage LOCAL_STORAGE_KEY = none ∨
         getKV app.storage LOCAL_STORAGE_KEY = some Blob.bad) :
    update env app (Msg.navEvent NavEvent.loadFromLocalStorage) =
      ({ app with
          logs := app.logs ++
            [LogEvent.received (Msg.navEvent NavEvent.loadFromLocalStorage)]
          notifs := app.notifs ++ [Notif.nothingToRestore]
          storage := removeKV app.storage LOCAL_STORAGE_KEY
          msgs := app.msgs ++ [Msg.init] }, false) ∧
    Notif.nothingToRestore.level = NotifLevel.warn ∧
    Notif.nothingToRestore.level ≠ NotifLevel.error := by
  refine ⟨?_, rfl, by decide⟩
  rcases h with h | h <;> simp [update, loadFromLocalStorage, h]

/-- Witness for C9: the sample loaded session has empty storage, so a
restore finds nothing and warns. -/
theorem nothing_to_restore_is_warn_witness :
    (getKV sampleApp.storage LOCAL_STORAGE_KEY = none) ∧
    update sampleEnv sampleApp (Msg.navEvent NavEvent.loadFromLocalStorage)
      = ({ sampleApp with
            logs := sampleApp.logs ++
              [LogEvent.received (Msg.navEvent NavEvent.loadFromLocalStorage)]
            notifs := sampleApp.notifs ++ [Notif.nothingToRestore]
            storage := removeKV sampleApp.storage LOCAL_STORAGE_KEY
            msgs := sampleApp.msgs ++ [Msg.init] }, false) := by
  exact ⟨rfl, (nothing_to_restore_is_warn sampleEnv sampleApp (Or.inl rfl)).1⟩

/-- C10: the three edit kinds do not treat failure uniformly: in `Loaded`,
a failed resize or remove still schedules the save message and reports
that a re-render is needed, while a failed insert schedules no save. -/
theorem edit_failure_nonuniform (env : Env) (app : App) (sc : Scenario) (d : InputsData)
    (h : app.state = State.loaded sc d) :
    (∀ p n e, InputsData.resize_array_at d p n = Except.error e →
      (update env app (Msg.listInputSizeChanged p n)).1.msgs
          = app.msgs ++ [Msg.saveToLocalStorage] ∧
      (update env app (Msg.listInputSizeChanged p n)).2 = true) ∧
    (∀ p e, InputsData.remove_at d p = Except.error e →
      (update env app (Msg.removeAt p)).1.msgs = app.msgs ++ [Msg.saveToLocalStorage] ∧
      (update env app (Msg.removeAt p)).2 = true) ∧
    (∀ p v e, InputsData.insert_at d p v = Except.error e →
      (update env app (Msg.editedInput p v)).1.msgs = app.msgs) := by
  refine ⟨?_, ?_, ?_⟩
  · intro p n e hfail
    constructor <;> simp [update, h, hfail]
  · intro p e hfail
    constructor <;> simp [update, h, hfail]
  · intro p v e hfail
    simp [update, h, hfail]

/-- Witness for C10: on the sample loaded session, the failed resize and
remove still schedule the save while the failed insert does not. -/
theorem edit_failure_nonuniform_witness :
    (update sampleEnv sampleApp (Msg.listInputSizeChanged [Seg.key "a"] 3)).1.msgs
        = sampleApp.msgs ++ [Msg.saveToLocalStorage] ∧
    (update sampleEnv sampleApp (Msg.removeAt [Seg.key "zz"])).1.msgs
        = sampleApp.msgs ++ [Msg.saveToLocalStorage] ∧
    (update sampleEnv sampleApp
        (Msg.editedInput [Seg.key "a", Seg.key "b"] (Node.num 2))).1.msgs
        = sampleApp.msgs := by
  have h := edit_failure_nonuniform sampleEnv sampleApp sampleScenario sampleInputs rfl
  exact ⟨(h.1 [Seg.key "a"] 3 (StoreErr.typeMismatch [Seg.key "a"]) rfl).1,
    (h.2.1 [Seg.key "zz"] StoreErr.notFound rfl).1,
    h.2.2 [Seg.key "a", Seg.key "b"] (Node.num 2)
      (StoreErr.typeMismatch [Seg.key "a"]) rfl⟩

end Hbs
